import Mathlib

/-!
Verification development for the pyinj dependency-injection container.

The definitions below are a shallow embedding of `src/pyinj/container.py`.
Python dictionaries are modelled as association lists with insert-or-replace
semantics, Python object identity as numeric ids, and the `None` value as an
explicit constructor of `PyVal` (so that the source's pervasive
"`dict.get` returns `None` for a missing key" conflation is preserved).
Parts of the package that `container.py` imports but whose sources are not
available (`pyinj.tokens`, `pyinj.contextual`, `pyinj.exceptions`) are
modelled from the specification text; each such definition carries a doc
comment starting with "Modelled from the spec:".
Context-variable state (`contextvars.ContextVar`) is modelled per logical
flow for the override map (a table indexed by flow id, with the current flow
recorded in the state); the resolution stack is modelled for the current
flow only, since every operation touches only the current flow's stack.
-/

namespace Pyinj

/-- Lifecycle scope of a token, mirroring `pyinj.tokens.Scope`. -/
inductive Scope where
  | SINGLETON
  | REQUEST
  | SESSION
  | TRANSIENT
deriving DecidableEq, Repr

/-- A Python type handle: a name (as used by `__name__`) plus a numeric
identity distinguishing distinct classes with equal names. -/
structure PyType where
  name : String
  tyid : Nat
deriving DecidableEq, Repr

/-- Modelled from the spec: `pyinj.tokens.Token` is not under src.
An immutable token `{name, type, scope, qualifier, tags}`; equality is on
all five fields (spec section 3, confirmed by tests/test_tokens.py); the
default scope is TRANSIENT, the default qualifier is None and the default
tags are empty. -/
structure Token where
  name : String
  type_ : PyType
  scope : Scope
  qualifier : Option String
  tags : List String
deriving DecidableEq, Repr

/-- Cleanup capability discovered on a constructed value (spec section 4.7). -/
inductive CleanupCap where
  | nocap
  | syncClose
  | asyncClose
  | asyncExit
deriving DecidableEq, Repr

/-- A Python value: either `None` or an object with an identity, a runtime
type, and a cleanup capability. -/
inductive PyVal where
  | none
  | obj (id : Nat) (ty : PyType) (cap : CleanupCap)
deriving DecidableEq, Repr

/-- The object id of a value (0 for `None`; only used on tracked objects). -/
def pyId : PyVal → Nat
  | PyVal.none => 0
  | PyVal.obj i _ _ => i

/-- True when the value exposes any cleanup capability, mirroring the
condition of `Container._validate_and_track` (`isinstance(SupportsClose | SupportsAsyncClose)`
or `hasattr aclose | __aexit__ | close`). -/
def hasCleanup : PyVal → Bool
  | PyVal.none => false
  | PyVal.obj _ _ cap => cap ≠ CleanupCap.nocap

/-- The distinct `ResolutionError` messages raised by `Container.get`/`aget`:
`noProvider` stands for "No provider registered for token ...", and
`asyncProviderUseAget` for "Provider is async; use aget() for async providers". -/
inductive ResMsg where
  | noProvider
  | asyncProviderUseAget
deriving DecidableEq, Repr

/-- Errors propagating out of container operations.  `resolutionError`
carries the token, the chain argument and the message kind exactly as the
source constructs `ResolutionError(token, [], msg)`; `circularDependency`
mirrors `CircularDependencyError(token, list(stack))`; `typeMismatch`
mirrors the `TypeError` raised by `_validate_and_track`; `providerFailure`
stands for an arbitrary exception raised by a provider callable. -/
inductive Err where
  | circularDependency (t : Token) (chain : List Token)
  | resolutionError (t : Token) (chain : List Token) (msg : ResMsg)
  | typeMismatch (t : Token)
  | providerFailure
deriving DecidableEq, Repr

/-- The body of a provider callable: return a fixed value, construct a fresh
object of a given type and capability, or raise. -/
inductive ProvBody where
  | const (v : PyVal)
  | fresh (ty : PyType) (cap : CleanupCap)
  | fail
deriving DecidableEq, Repr

/-- A provider callable: `isAsync` mirrors `asyncio.iscoroutinefunction`. -/
structure Provider where
  isAsync : Bool
  body : ProvBody
deriving DecidableEq, Repr

/-- Decidable equality for resolution outcomes. -/
instance : DecidableEq (Except Err PyVal) :=
  fun a b =>
    match a, b with
    | Except.ok x, Except.ok y =>
        if h : x = y then Decidable.isTrue (by rw [h]) else Decidable.isFalse (by simp [h])
    | Except.error x, Except.error y =>
        if h : x = y then Decidable.isTrue (by rw [h]) else Decidable.isFalse (by simp [h])
    | Except.ok _, Except.error _ => Decidable.isFalse (by simp)
    | Except.error _, Except.ok _ => Decidable.isFalse (by simp)

/-- Lookup in a Python-dict model (association list, unique keys). -/
def dlookup {α β : Type} [DecidableEq α] : List (α × β) → α → Option β
  | [], _ => Option.none
  | kv :: rest, k => if kv.1 = k then some kv.2 else dlookup rest k

/-- Membership in a Python-dict model (`k in d`). -/
def dcontains {α β : Type} [DecidableEq α] (d : List (α × β)) (k : α) : Bool :=
  (dlookup d k).isSome

/-- Insert-or-replace in a Python-dict model (`d[k] = v`): replaces in place
when the key is present, appends otherwise (insertion order preserved). -/
def dinsert {α β : Type} [DecidableEq α] : List (α × β) → α → β → List (α × β)
  | [], k, v => [(k, v)]
  | kv :: rest, k, v => if kv.1 = k then (k, v) :: rest else kv :: dinsert rest k v

/-- `d1.update(d2)` on Python dicts: fold the entries of `d2` into `d1`. -/
def dupdate {α β : Type} [DecidableEq α] (d : List (α × β)) (m : List (α × β)) :
    List (α × β) :=
  m.foldl (fun acc kv => dinsert acc kv.1 kv.2) d

/-- The container state: the fields of `Container.__init__` that the claims
mention, plus the context-variable state.  `ovCtx` models the per-flow
values of the `_overrides` ContextVar (default `None`); `curFlow` is the
currently executing flow; `stack` is the current flow's value of the
module-level `_resolution_stack` ContextVar; `requestFrames`/`sessionFrames`
are the contextual scope frame stacks; `resources` is `self._resources` in
append order; `callLog` records each provider invocation (by token) and
`closeLog` each resource-cleanup invocation (by object id), so that
invocation counts are observable; `nextId` feeds fresh object identities. -/
structure St where
  providers : List (Token × Provider)
  tokenScopes : List (Token × Scope)
  singletons : List (Token × PyVal)
  givens : List (PyType × PyVal)
  ovCtx : List (Nat × Option (List (Token × PyVal)))
  curFlow : Nat
  stack : List Token
  requestFrames : List (List (Token × PyVal))
  sessionFrames : List (List (Token × PyVal))
  resources : List PyVal
  nextId : Nat
  cacheHits : Nat
  cacheMisses : Nat
  callLog : List Token
  closeLog : List Nat
deriving DecidableEq, Repr

/-- The override map seen by flow `f` (the `_overrides` ContextVar value in
that flow's context; the default is `None`). -/
def ovAt (s : St) (f : Nat) : Option (List (Token × PyVal)) :=
  (dlookup s.ovCtx f).getD Option.none

/-- `self._overrides.get()` in the current flow. -/
def ovGet (s : St) : Option (List (Token × PyVal)) :=
  ovAt s s.curFlow

/-- `self._overrides.set(m)` in the current flow. -/
def ovSet (s : St) (m : Option (List (Token × PyVal))) : St :=
  { s with ovCtx := dinsert s.ovCtx s.curFlow m }

/-- `Container._get_override`: consult the current flow's override map and
return the bound value only when it is present and not `None`. -/
def get_override (s : St) (t : Token) : Option PyVal :=
  match ovGet s with
  | Option.none => Option.none
  | some m =>
      match dlookup m t with
      | Option.none => Option.none
      | some v => if v = PyVal.none then Option.none else some v

/-- `Container._get_scope`: the recorded scope override, else the token's
own scope. -/
def effectiveScope (s : St) (t : Token) : Scope :=
  (dlookup s.tokenScopes t).getD t.scope

/-- Modelled from the spec: `ContextualContainer.resolve_from_context` is
not under src.  Per resolution step 3 and the total precedence
override > singleton-cache > active-scope-cache > provider, the singleton
cache is consulted first for every token, then the innermost active
REQUEST/SESSION frame when that is the token's effective scope; TRANSIENT
results are never cached.  A stored Python `None` is indistinguishable from
absence, so the function returns `PyVal.none` for a miss. -/
def resolve_from_context (s : St) (t : Token) : PyVal :=
  let sv := (dlookup s.singletons t).getD PyVal.none
  if sv ≠ PyVal.none then sv
  else
    match effectiveScope s t with
    | Scope.REQUEST =>
        match s.requestFrames with
        | [] => PyVal.none
        | f :: _ => (dlookup f t).getD PyVal.none
    | Scope.SESSION =>
        match s.sessionFrames with
        | [] => PyVal.none
        | f :: _ => (dlookup f t).getD PyVal.none
    | _ => PyVal.none

/-- Modelled from the spec: `ContextualContainer.store_in_context` is not
under src.  Per resolution step 9: SINGLETON goes to the container
singleton cache, REQUEST/SESSION to the current frame when one is active
(otherwise the value is returned but not cached), TRANSIENT is never
cached. -/
def store_in_context (s : St) (t : Token) (v : PyVal) : St :=
  match effectiveScope s t with
  | Scope.SINGLETON => { s with singletons := dinsert s.singletons t v }
  | Scope.REQUEST =>
      match s.requestFrames with
      | [] => s
      | f :: rest => { s with requestFrames := dinsert f t v :: rest }
  | Scope.SESSION =>
      match s.sessionFrames with
      | [] => s
      | f :: rest => { s with sessionFrames := dinsert f t v :: rest }
  | Scope.TRANSIENT => s

/-- Modelled from the spec: `Token.validate` lives in `pyinj.tokens`, not
under src.  Step 7 requires the produced instance to be assignable to the
token's declared type handle; `None` is not an instance of any service
type. -/
def tokenValidate (t : Token) (v : PyVal) : Bool :=
  match v with
  | PyVal.none => false
  | PyVal.obj _ ty _ => ty = t.type_

/-- `Container._validate_and_track`: raise `TypeError` when validation
fails, then append the instance to `self._resources` when it exposes a
cleanup capability. -/
def validate_and_track (s : St) (t : Token) (v : PyVal) : Except Err St :=
  if tokenValidate t v then
    if hasCleanup v then Except.ok { s with resources := s.resources ++ [v] }
    else Except.ok s
  else Except.error (Err.typeMismatch t)

/-- `Container._set_singleton_cached`. -/
def set_singleton_cached (s : St) (t : Token) (v : PyVal) : St :=
  { s with singletons := dinsert s.singletons t v }

/-- Invoke a provider body: the invocation is logged under the resolved
token, a `fresh` body allocates a new object identity, and `fail` raises. -/
def runProvider (s : St) (t : Token) (b : ProvBody) : Except Err PyVal × St :=
  let s1 := { s with callLog := s.callLog ++ [t] }
  match b with
  | ProvBody.const v => (Except.ok v, s1)
  | ProvBody.fresh ty cap =>
      (Except.ok (PyVal.obj s1.nextId ty cap), { s1 with nextId := s1.nextId + 1 })
  | ProvBody.fail => (Except.error Err.providerFailure, s1)

/-- The body of `Container.get`/`aget` inside the resolution guard (source
lines 351-378 and 408-432): provider lookup, effective-scope dispatch, the
double-checked singleton cache read, the async-provider check (an error for
the synchronous entry point, an await for the asynchronous one, selected by
`isAsyncCall`), construction, validation/tracking, and the cache write. -/
def construct (isAsyncCall : Bool) (s : St) (t : Token) : Except Err PyVal × St :=
  match dlookup s.providers t with
  | Option.none => (Except.error (Err.resolutionError t [] ResMsg.noProvider), s)
  | some p =>
      match effectiveScope s t with
      | Scope.SINGLETON =>
          let cached := (dlookup s.singletons t).getD PyVal.none
          if cached ≠ PyVal.none then (Except.ok cached, s)
          else if p.isAsync ∧ ¬ isAsyncCall then
            (Except.error (Err.resolutionError t [] ResMsg.asyncProviderUseAget), s)
          else
            match runProvider s t p.body with
            | (Except.error e, s1) => (Except.error e, s1)
            | (Except.ok inst, s1) =>
                match validate_and_track s1 t inst with
                | Except.error e => (Except.error e, s1)
                | Except.ok s2 => (Except.ok inst, set_singleton_cached s2 t inst)
      | _ =>
          if p.isAsync ∧ ¬ isAsyncCall then
            (Except.error (Err.resolutionError t [] ResMsg.asyncProviderUseAget), s)
          else
            match runProvider s t p.body with
            | (Except.error e, s1) => (Except.error e, s1)
            | (Except.ok inst, s1) =>
                match validate_and_track s1 t inst with
                | Except.error e => (Except.error e, s1)
                | Except.ok s2 => (Except.ok inst, store_in_context s2 t inst)

/-- Resolution of an already-coerced token (`Container.get`/`aget` from the
override check on): override, context cache, hit/miss counters, then the
resolution guard (`Container._resolution_guard`: membership check against
the current flow's stack, push, body, and a reset that restores the value
the stack had when the guard was entered, on success and on error alike). -/
def resolveToken (isAsyncCall : Bool) (s : St) (t : Token) : Except Err PyVal × St :=
  match get_override s t with
  | some v => (Except.ok v, { s with cacheHits := s.cacheHits + 1 })
  | Option.none =>
      let ctx := resolve_from_context s t
      if ctx ≠ PyVal.none then (Except.ok ctx, { s with cacheHits := s.cacheHits + 1 })
      else
        let sm := { s with cacheMisses := s.cacheMisses + 1 }
        if t ∈ sm.stack then
          (Except.error (Err.circularDependency t sm.stack), sm)
        else
          let pushed := { sm with stack := sm.stack ++ [t] }
          let r := construct isAsyncCall pushed t
          (r.1, { r.2 with stack := sm.stack })

/-- `Container._coerce_to_token`: a token is returned unchanged; a type is
matched against the registered tokens in insertion order, else a token with
the default scope, qualifier and tags is fabricated (string input, which
raises `TypeError` in the source, is excluded by the input type). -/
def coerce_to_token (s : St) (spec : Token ⊕ PyType) : Token :=
  match spec with
  | Sum.inl t => t
  | Sum.inr ty =>
      match s.providers.find? (fun kv => kv.1.type_ = ty) with
      | some kv => kv.1
      | Option.none =>
          { name := ty.name, type_ := ty, scope := Scope.TRANSIENT,
            qualifier := Option.none, tags := [] }

/-- `Container.resolve_given`: the given-instance table, with providers
elided to the value they return (no claim observes given invocation
counts); an absent entry and a `None`-returning given coincide, as in the
source's `if given is not None` check. -/
def resolve_given (s : St) (ty : PyType) : PyVal :=
  (dlookup s.givens ty).getD PyVal.none

namespace Container

/-- `Container.get`: the synchronous entry point (given-instance check for
bare types, coercion, then resolution with async providers rejected). -/
def get (s : St) (spec : Token ⊕ PyType) : Except Err PyVal × St :=
  match spec with
  | Sum.inl t => resolveToken false s (coerce_to_token s (Sum.inl t))
  | Sum.inr ty =>
      let g := resolve_given s ty
      if g ≠ PyVal.none then (Except.ok g, s)
      else resolveToken false s (coerce_to_token s (Sum.inr ty))

/-- `Container.aget`: the asynchronous entry point; identical to `get`
except that an async provider is awaited rather than rejected. -/
def aget (s : St) (spec : Token ⊕ PyType) : Except Err PyVal × St :=
  match spec with
  | Sum.inl t => resolveToken true s (coerce_to_token s (Sum.inl t))
  | Sum.inr ty =>
      let g := resolve_given s ty
      if g ≠ PyVal.none then (Except.ok g, s)
      else resolveToken true s (coerce_to_token s (Sum.inr ty))

end Container

/-- Modelled from the spec: `TokenFactory.create` lives in `pyinj.tokens`,
not under src.  It builds a token from name, type, scope and tags (with no
qualifier); interning does not affect equality. -/
def tokensCreate (name : String) (ty : PyType) (scope : Scope)
    (tags : List String) : Token :=
  { name := name, type_ := ty, scope := scope, qualifier := Option.none,
    tags := tags }

/-- `Container.register`: a type argument is turned into a fresh token
carrying the requested scope (default TRANSIENT); a token argument keeps
its identity, with a supplied scope recorded in `_token_scopes`; the
provider is then stored (provider callability holds by construction in
this model). -/
def register (s : St) (spec : Token ⊕ PyType) (p : Provider)
    (scope : Option Scope) (tags : List String) : St :=
  match spec with
  | Sum.inr ty =>
      let t := tokensCreate ty.name ty (scope.getD Scope.TRANSIENT) tags
      { s with providers := dinsert s.providers t p }
  | Sum.inl t =>
      let s1 :=
        match scope with
        | some sc => { s with tokenScopes := dinsert s.tokenScopes t sc }
        | Option.none => s
      { s1 with providers := dinsert s1.providers t p }

/-- `Container.register_value`: a type argument becomes a singleton-scoped
token (`tokens.singleton`); the value is written directly into the
singleton cache, leaving the provider table untouched. -/
def register_value (s : St) (spec : Token ⊕ PyType) (v : PyVal) : St :=
  let t :=
    match spec with
    | Sum.inl t => t
    | Sum.inr ty => tokensCreate ty.name ty Scope.SINGLETON []
  { s with singletons := dinsert s.singletons t v }

/-- Modelled from the spec: `ContextualContainer.clear_all_contexts` is not
under src.  It empties the contextual storage: the scope frame stacks, the
singleton storage (tests/test_contextual.py test_clear_all_contexts), and
the tracked-resource list (required for `aclose` idempotence, spec section
4.7).  The `_overrides` ContextVar belongs to `Container` and is not
touched by `clear`. -/
def clear_all_contexts (s : St) : St :=
  { s with
    requestFrames := []
    sessionFrames := []
    singletons := []
    resources := [] }

/-- `Container.clear`: empty providers, caches, given instances and the
statistics counters, then clear all contextual storage (the source also
clears `_transients`, `_dependencies` and `_resolution_times`, which this
model does not carry). -/
def clear (s : St) : St :=
  clear_all_contexts
    { s with
      providers := []
      singletons := []
      givens := []
      cacheHits := 0
      cacheMisses := 0 }

/-- `Container.has`: a type argument is answered from the given-provider
table and from membership of a freshly fabricated default token in the
provider table or singleton cache; a token argument from the latter two
tables directly. -/
def has (s : St) (spec : Token ⊕ PyType) : Bool :=
  match spec with
  | Sum.inr ty =>
      dcontains s.givens ty ||
        (let fab : Token :=
          { name := ty.name, type_ := ty, scope := Scope.TRANSIENT,
            qualifier := Option.none, tags := [] }
         dcontains s.providers fab || dcontains s.singletons fab)
  | Sum.inl t => dcontains s.providers t || dcontains s.singletons t

/-- `Container.__aexit__(None, None, None)`: schedule the cleanup of every
tracked resource that exposes a cleanup capability, iterating the resource
list in reverse append order; the resource list itself is not modified
here. -/
def aexitCleanup (s : St) : St :=
  { s with closeLog := s.closeLog ++ (s.resources.reverse.filter hasCleanup).map pyId }

/-- `Container.aclose`: `await __aexit__(None, None, None)` then `clear()`. -/
def aclose (s : St) : St :=
  clear (aexitCleanup s)

/-- Entry half of `Container.use_overrides`: read the parent override map,
merge the given mapping over a copy of it (the mapping winning), and set
the current flow's override variable to the merged map. -/
def use_overrides_enter (s : St) (m : List (Token × PyVal)) : St :=
  let parent := ovGet s
  let merged := dupdate (parent.getD []) m
  ovSet s (some merged)

/-- `Container.use_overrides` as a whole: run `body` between the entry
merge and the `finally: self._overrides.reset(token)` exit, which restores
the value the variable had before the entry `set`, whether the body ends
normally or with an error. -/
def use_overrides_run (s : St) (m : List (Token × PyVal))
    (body : St → St × Option Err) : St × Option Err :=
  let parent := ovGet s
  let br := body (use_overrides_enter s m)
  (ovSet br.1 parent, br.2)

/-- N sequential `get` calls, collecting each outcome and threading the
state. -/
def getN : Nat → St → (Token ⊕ PyType) → List (Except Err PyVal) × St
  | 0, s, _ => ([], s)
  | n + 1, s, spec =>
      let r := Container.get s spec
      let rest := getN n r.2 spec
      (r.1 :: rest.1, rest.2)

/-- Bookkeeping-only state update shared by the cache-hit paths of
`Container.get`/`aget`: the hit counter advances and nothing else changes. -/
def bumpHits (s : St) : St :=
  { s with cacheHits := s.cacheHits + 1 }

/-- Bookkeeping-only state update of the cache-miss paths. -/
def missBump (s : St) : St :=
  { s with cacheMisses := s.cacheMisses + 1 }

/-- The state in which `construct` runs when resolution falls through to
it: the miss counter is advanced and the token is pushed onto the current
flow's guard stack. -/
def pushedSt (s : St) (t : Token) : St :=
  { missBump s with stack := s.stack ++ [t] }

section Fixtures

/-- A concrete service type used by the concrete witness states. -/
def tyA : PyType := { name := "A", tyid := 0 }

/-- A second concrete service type. -/
def tyB : PyType := { name := "B", tyid := 1 }

/-- A singleton-scoped token for `tyA`. -/
def tokSg : Token :=
  { name := "a", type_ := tyA, scope := Scope.SINGLETON, qualifier := Option.none,
    tags := [] }

/-- A transient-scoped token for `tyA`. -/
def tokTr : Token :=
  { name := "t", type_ := tyA, scope := Scope.TRANSIENT, qualifier := Option.none,
    tags := [] }

/-- A request-scoped token for `tyB`. -/
def tokRq : Token :=
  { name := "r", type_ := tyB, scope := Scope.REQUEST, qualifier := Option.none,
    tags := [] }

/-- A plain instance of `tyA` with no cleanup capability. -/
def objV : PyVal := PyVal.obj 100 tyA CleanupCap.nocap

/-- A second plain instance of `tyA`. -/
def objW : PyVal := PyVal.obj 200 tyA CleanupCap.nocap

/-- The token fabricated by `Container.has` (and by `_coerce_to_token` when
no registered token matches): default scope, qualifier and tags. -/
def fabToken (ty : PyType) : Token :=
  { name := ty.name, type_ := ty, scope := Scope.TRANSIENT,
    qualifier := Option.none, tags := [] }

/-- The freshly initialized container state. -/
def emptySt : St where
  providers := []
  tokenScopes := []
  singletons := []
  givens := []
  ovCtx := []
  curFlow := 0
  stack := []
  requestFrames := []
  sessionFrames := []
  resources := []
  nextId := 1
  cacheHits := 0
  cacheMisses := 0
  callLog := []
  closeLog := []

/-- The intermediate state of the SINGLETON construction path at the
program point between `_validate_and_track` (which has just appended the
resource record) and `_set_singleton_cached` (which has not yet run): the
guard holds the token, the provider invocation is logged, the fresh
instance is allocated and tracked, and the singleton cache is still
unwritten. -/
def trackMid (s : St) (t : Token) (ty : PyType) (cap : CleanupCap) : St :=
  { pushedSt s t with
    callLog := s.callLog ++ [t]
    nextId := s.nextId + 1
    resources := s.resources ++ [PyVal.obj s.nextId ty cap] }

/-- Concrete state for the C2 witness: a provider is registered for
`tokSg` and the guard stack already holds `tokSg`. -/
def wC2St : St :=
  { (register emptySt (Sum.inl tokSg) ⟨false, ProvBody.const objV⟩ Option.none [])
    with stack := [tokSg] }

/-- Concrete state for the C1 witness: a provider and a cached singleton
are both present for `tokSg`, and the override map of the current flow
binds `tokSg` to a different instance `objW`. -/
def wC1St : St :=
  { (register_value (register emptySt (Sum.inl tokSg) ⟨false, ProvBody.const objV⟩
      Option.none []) (Sum.inl tokSg) objV)
    with ovCtx := [(0, some [(tokSg, objW)])] }

/-- Concrete state for the C9 witness: the override map binds `tokSg` to
`None`, the singleton cache holds `None` for it, and a provider returning
`objV` is registered. -/
def wC9St : St :=
  { (register_value (register emptySt (Sum.inl tokSg) ⟨false, ProvBody.const objV⟩
      Option.none []) (Sum.inl tokSg) PyVal.none)
    with ovCtx := [(0, some [(tokSg, PyVal.none)])] }

/-- Concrete state for the C4 witness: a fresh-instance provider registered
for the transient token `tokTr`. -/
def wC4St : St :=
  register emptySt (Sum.inl tokTr) ⟨false, ProvBody.fresh tyA CleanupCap.nocap⟩
    Option.none []

/-- Concrete state for the C5 witness: an async provider registered for
`tokSg`, everything else empty. -/
def wC5St : St :=
  register emptySt (Sum.inl tokSg) ⟨true, ProvBody.const objV⟩ Option.none []

/-- Concrete body (the identity, ending normally) for the C8 witness. -/
def wC8Body : St → St × Option Err := fun u => (u, Option.none)

/-- Concrete state for the C8 witness: flow 0 is current with a one-entry
override map, and flow 1 holds its own map. -/
def wC8St : St :=
  { emptySt with ovCtx := [(0, some [(tokSg, objV)]), (1, some [(tokTr, objW)])] }

/-- Concrete state for the C6 counterexample: a transient token whose
provider constructs a cleanup-capable instance. -/
def cex6St : St :=
  register emptySt (Sum.inl tokTr) ⟨false, ProvBody.fresh tyA CleanupCap.syncClose⟩
    Option.none []

/-- Concrete state for the C6 witness: a singleton token whose provider
constructs a cleanup-capable instance. -/
def wC6St : St :=
  register emptySt (Sum.inl tokSg) ⟨false, ProvBody.fresh tyA CleanupCap.asyncClose⟩
    Option.none []

/-- Concrete state for the C7 witness: two tracked cleanup-capable
resources appended in order 7 then 9. -/
def wC7St : St :=
  { emptySt with
    resources := [PyVal.obj 7 tyA CleanupCap.syncClose,
      PyVal.obj 9 tyB CleanupCap.asyncClose] }

end Fixtures

section DictLemmas

theorem dlookup_dinsert_self {α β : Type} [DecidableEq α] (d : List (α × β)) (k : α)
    (v : β) : dlookup (dinsert d k v) k = some v := by
  induction d with
  | nil => simp [dinsert, dlookup]
  | cons kv rest ih =>
      by_cases h : kv.1 = k
      · simp [dinsert, h, dlookup]
      · simp [dinsert, h, dlookup, ih]

theorem dlookup_dinsert_ne {α β : Type} [DecidableEq α] (d : List (α × β)) (k k2 : α)
    (v : β) (h : k2 ≠ k) : dlookup (dinsert d k v) k2 = dlookup d k2 := by
  induction d with
  | nil => simp [dinsert, dlookup, Ne.symm h]
  | cons kv rest ih =>
      by_cases hk : kv.1 = k
      · have : ¬ kv.1 = k2 := by rw [hk]; exact Ne.symm h
        simp [dinsert, hk, dlookup, Ne.symm h, this]
      · by_cases hk2 : kv.1 = k2
        · simp [dinsert, hk, dlookup, hk2, h]
        · simp [dinsert, hk, dlookup, hk2, ih]

theorem dlookup_eq_none_iff {α β : Type} [DecidableEq α] (d : List (α × β)) (k : α) :
    dlookup d k = Option.none ↔ k ∉ d.map Prod.fst := by
  induction d with
  | nil => simp [dlookup]
  | cons kv rest ih =>
      rw [List.map_cons]
      by_cases h : kv.1 = k
      · subst h
        simp [dlookup]
      · simp [dlookup, h, ih, List.mem_cons, Ne.symm h]

theorem dupdate_cons {α β : Type} [DecidableEq α] (d : List (α × β)) (kv : α × β)
    (rest : List (α × β)) :
    dupdate d (kv :: rest) = dupdate (dinsert d kv.1 kv.2) rest := rfl

theorem dupdate_lookup_notin {α β : Type} [DecidableEq α] (d m : List (α × β)) (k : α)
    (h : dlookup m k = Option.none) :
    dlookup (dupdate d m) k = dlookup d k := by
  induction m generalizing d with
  | nil => rfl
  | cons kv rest ih =>
      have hne : ¬ kv.1 = k := by
        intro hk
        simp [dlookup, hk] at h
      have hrest : dlookup rest k = Option.none := by
        simpa [dlookup, hne] using h
      rw [dupdate_cons, ih (dinsert d kv.1 kv.2) hrest,
        dlookup_dinsert_ne d kv.1 k kv.2 (fun hk => hne hk.symm)]

theorem dupdate_lookup_in {α β : Type} [DecidableEq α] (d m : List (α × β)) (k : α)
    (v : β) (hm : (m.map Prod.fst).Nodup) (h : dlookup m k = some v) :
    dlookup (dupdate d m) k = some v := by
  induction m generalizing d with
  | nil => simp [dlookup] at h
  | cons kv rest ih =>
      rw [dupdate_cons]
      have hm2 : kv.1 ∉ rest.map Prod.fst ∧ (rest.map Prod.fst).Nodup := by
        rw [List.map_cons] at hm
        exact List.nodup_cons.mp hm
      by_cases hk : kv.1 = k
      · have hv : v = kv.2 := by
          simp [dlookup, hk] at h
          exact h.symm
        have hnotin : k ∉ rest.map Prod.fst := by
          rw [← hk]
          exact hm2.1
        rw [dupdate_lookup_notin _ rest k ((dlookup_eq_none_iff rest k).mpr hnotin)]
        rw [hv, ← hk]
        exact dlookup_dinsert_self d kv.1 kv.2
      · have hrest : dlookup rest k = some v := by
          simpa [dlookup, hk] using h
        exact ih (dinsert d kv.1 kv.2) hm2.2 hrest

theorem dlookup_none_of_not_contains {α β : Type} [DecidableEq α]
    (d : List (α × β)) (k : α) (h : dcontains d k = false) :
    dlookup d k = Option.none := by
  unfold dcontains at h
  cases hdl : dlookup d k with
  | none => rfl
  | some v => rw [hdl] at h; simp at h

theorem dinsert_eq_append {α β : Type} [DecidableEq α] (d : List (α × β)) (k : α)
    (v : β) (h : dlookup d k = Option.none) : dinsert d k v = d ++ [(k, v)] := by
  induction d with
  | nil => rfl
  | cons kv rest ih =>
      have hne : ¬ kv.1 = k := by
        intro hk
        simp [dlookup, hk] at h
      have hrest : dlookup rest k = Option.none := by
        simpa [dlookup, hne] using h
      simp [dinsert, hne, ih hrest]

theorem find?_type_last (l : List (Token × Provider)) (T : PyType) (tr : Token)
    (p : Provider)
    (h : ∀ kv ∈ l, kv.1.type_ ≠ T) (htr : tr.type_ = T) :
    (l ++ [(tr, p)]).find? (fun kv => kv.1.type_ = T) = some (tr, p) := by
  induction l with
  | nil => simp [List.find?, htr]
  | cons kv rest ih =>
      have h1 : kv.1.type_ ≠ T := h kv (List.mem_cons_self kv rest)
      rw [List.cons_append, List.find?_cons_of_neg _ (by simp [h1])]
      exact ih (fun kv2 hk => h kv2 (List.mem_cons_of_mem kv hk))

end DictLemmas

section ResolutionLemmas

theorem get_inl (s : St) (t : Token) :
    Container.get s (Sum.inl t) = resolveToken false s t := rfl

theorem aget_inl (s : St) (t : Token) :
    Container.aget s (Sum.inl t) = resolveToken true s t := rfl

theorem ctx_none_singleton (s : St) (t : Token)
    (h : resolve_from_context s t = PyVal.none) :
    (dlookup s.singletons t).getD PyVal.none = PyVal.none := by
  by_contra hne
  rw [resolve_from_context] at h
  simp only [if_pos hne] at h
  exact hne h

theorem resolveToken_override (b : Bool) (s : St) (t : Token) (v : PyVal)
    (h : get_override s t = some v) :
    resolveToken b s t = (Except.ok v, bumpHits s) := by
  simp [resolveToken, h, bumpHits]

theorem resolveToken_ctx (b : Bool) (s : St) (t : Token)
    (h1 : get_override s t = Option.none)
    (h2 : resolve_from_context s t ≠ PyVal.none) :
    resolveToken b s t = (Except.ok (resolve_from_context s t), bumpHits s) := by
  simp [resolveToken, h1, h2, bumpHits]

theorem resolveToken_circular (b : Bool) (s : St) (t : Token)
    (h1 : get_override s t = Option.none)
    (h2 : resolve_from_context s t = PyVal.none)
    (h3 : t ∈ s.stack) :
    resolveToken b s t =
      (Except.error (Err.circularDependency t s.stack),
       { s with cacheMisses := s.cacheMisses + 1 }) := by
  simp [resolveToken, h1, h2, h3]

theorem resolveToken_main (b : Bool) (s : St) (t : Token)
    (h1 : get_override s t = Option.none)
    (h2 : resolve_from_context s t = PyVal.none)
    (h3 : t ∉ s.stack) :
    resolveToken b s t =
      ((construct b (pushedSt s t) t).1,
       { (construct b (pushedSt s t) t).2 with stack := s.stack }) := by
  simp [resolveToken, h1, h2, h3, pushedSt, missBump]

theorem resolveToken_stack (b : Bool) (s : St) (t : Token) :
    (resolveToken b s t).2.stack = s.stack := by
  unfold resolveToken
  cases h : get_override s t with
  | some v => simp
  | none =>
      by_cases h2 : resolve_from_context s t ≠ PyVal.none
      · simp [h2]
      · simp only [h2, if_neg, ite_false, if_false]
        by_cases h3 : t ∈ s.stack <;> simp [h3]

theorem construct_async_error (s : St) (t : Token) (p : Provider)
    (hp : dlookup s.providers t = some p)
    (ha : p.isAsync = true)
    (hs : (dlookup s.singletons t).getD PyVal.none = PyVal.none) :
    construct false s t =
      (Except.error (Err.resolutionError t [] ResMsg.asyncProviderUseAget), s) := by
  unfold construct
  rw [hp]
  cases heff : effectiveScope s t <;> simp [heff, hs, ha]

theorem get_override_some (s : St) (t : Token) (m : List (Token × PyVal)) (v : PyVal)
    (hm : ovGet s = some m) (hv : dlookup m t = some v) (hnn : v ≠ PyVal.none) :
    get_override s t = some v := by
  simp [get_override, hm, hv, hnn]

theorem resolve_singleton_hit (s : St) (t : Token) (w : PyVal)
    (hw : dlookup s.singletons t = some w) (hnn : w ≠ PyVal.none) :
    resolve_from_context s t = w := by
  simp [resolve_from_context, hw, hnn]

theorem resolve_frame_hit (s : St) (t : Token) (w : PyVal)
    (f : List (Token × PyVal)) (rest : List (List (Token × PyVal)))
    (hs : (dlookup s.singletons t).getD PyVal.none = PyVal.none)
    (heff : effectiveScope s t = Scope.REQUEST)
    (hfr : s.requestFrames = f :: rest)
    (hw : dlookup f t = some w) :
    resolve_from_context s t = w := by
  simp [resolve_from_context, hs, heff, hfr, hw]

theorem resolve_none_of_empty (s : St) (t : Token)
    (hs : (dlookup s.singletons t).getD PyVal.none = PyVal.none)
    (hrq : s.requestFrames = []) (hsn : s.sessionFrames = []) :
    resolve_from_context s t = PyVal.none := by
  cases heff : effectiveScope s t <;> simp [resolve_from_context, hs, heff, hrq, hsn]

theorem construct_no_provider (b : Bool) (s : St) (t : Token)
    (hp : dlookup s.providers t = Option.none) :
    construct b s t = (Except.error (Err.resolutionError t [] ResMsg.noProvider), s) := by
  unfold construct
  rw [hp]

theorem construct_singleton_const (b : Bool) (s : St) (t : Token) (v : PyVal)
    (hp : dlookup s.providers t = some ⟨false, ProvBody.const v⟩)
    (heff : effectiveScope s t = Scope.SINGLETON)
    (hs : (dlookup s.singletons t).getD PyVal.none = PyVal.none)
    (hval : tokenValidate t v = true) (hcl : hasCleanup v = false) :
    construct b s t =
      (Except.ok v,
       { s with
         callLog := s.callLog ++ [t]
         singletons := dinsert s.singletons t v }) := by
  unfold construct
  rw [hp]
  simp [heff, hs, runProvider, validate_and_track, hval, hcl, set_singleton_cached,
    effectiveScope] at heff ⊢
  simp [heff]

theorem construct_transient_const (b : Bool) (s : St) (t : Token) (v : PyVal)
    (hp : dlookup s.providers t = some ⟨false, ProvBody.const v⟩)
    (heff : effectiveScope s t = Scope.TRANSIENT)
    (hval : tokenValidate t v = true) (hcl : hasCleanup v = false) :
    construct b s t = (Except.ok v, { s with callLog := s.callLog ++ [t] }) := by
  unfold construct
  rw [hp]
  simp [heff, runProvider, validate_and_track, hval, hcl, store_in_context,
    effectiveScope] at heff ⊢
  simp [heff]

theorem construct_transient_fresh (b : Bool) (s : St) (t : Token) (ty : PyType)
    (cap : CleanupCap)
    (hp : dlookup s.providers t = some ⟨false, ProvBody.fresh ty cap⟩)
    (heff : effectiveScope s t = Scope.TRANSIENT)
    (hty : ty = t.type_) :
    construct b s t =
      (Except.ok (PyVal.obj s.nextId ty cap),
       { s with
         callLog := s.callLog ++ [t]
         nextId := s.nextId + 1
         resources :=
           if hasCleanup (PyVal.obj s.nextId ty cap) then
             s.resources ++ [PyVal.obj s.nextId ty cap]
           else s.resources }) := by
  unfold construct
  rw [hp]
  subst hty
  simp only [effectiveScope] at heff
  by_cases hcl : hasCleanup (PyVal.obj s.nextId t.type_ cap) = true <;>
    simp [heff, runProvider, validate_and_track, tokenValidate,
      store_in_context, effectiveScope, hcl]

theorem get_transient_fresh_step (s : St) (t : Token) (ty : PyType) (cap : CleanupCap)
    (h1 : get_override s t = Option.none)
    (h2 : resolve_from_context s t = PyVal.none)
    (h3 : t ∉ s.stack)
    (hp : dlookup s.providers t = some ⟨false, ProvBody.fresh ty cap⟩)
    (heff : effectiveScope s t = Scope.TRANSIENT)
    (hty : ty = t.type_) :
    Container.get s (Sum.inl t) =
      (Except.ok (PyVal.obj s.nextId ty cap),
       { missBump s with
         callLog := s.callLog ++ [t]
         nextId := s.nextId + 1
         resources :=
           if hasCleanup (PyVal.obj s.nextId ty cap) then
             s.resources ++ [PyVal.obj s.nextId ty cap]
           else s.resources }) := by
  rw [get_inl, resolveToken_main false s t h1 h2 h3]
  rw [construct_transient_fresh false (pushedSt s t) t ty cap hp heff hty]
  by_cases hcl : hasCleanup (PyVal.obj s.nextId ty cap) = true <;>
    simp [pushedSt, missBump, hcl]

theorem getN_transient_fresh (s : St) (t : Token) (ty : PyType) (cap : CleanupCap)
    (N : Nat)
    (h1 : get_override s t = Option.none)
    (h2 : resolve_from_context s t = PyVal.none)
    (h3 : t ∉ s.stack)
    (hp : dlookup s.providers t = some ⟨false, ProvBody.fresh ty cap⟩)
    (heff : effectiveScope s t = Scope.TRANSIENT)
    (hty : ty = t.type_) :
    (getN N s (Sum.inl t)).1 =
      (List.range N).map (fun i => Except.ok (PyVal.obj (s.nextId + i) ty cap)) ∧
    (getN N s (Sum.inl t)).2.callLog = s.callLog ++ List.replicate N t := by
  induction N generalizing s with
  | zero => simp [getN]
  | succ n ih =>
      rw [show getN (n + 1) s (Sum.inl t) =
        (let r := Container.get s (Sum.inl t)
         let rest := getN n r.2 (Sum.inl t)
         (r.1 :: rest.1, rest.2)) from rfl]
      rw [get_transient_fresh_step s t ty cap h1 h2 h3 hp heff hty]
      set s2 : St :=
        { missBump s with
          callLog := s.callLog ++ [t]
          nextId := s.nextId + 1
          resources :=
            if hasCleanup (PyVal.obj s.nextId ty cap) then
              s.resources ++ [PyVal.obj s.nextId ty cap]
            else s.resources } with hs2
      have ih2 := ih s2 h1 h2 h3 hp heff
      have hlog2 : s2.callLog = s.callLog ++ [t] := rfl
      have hnext2 : s2.nextId = s.nextId + 1 := rfl
      refine ⟨?_, ?_⟩
      · simp only [ih2.1, hnext2, List.range_succ_eq_map, List.map_cons, List.map_map]
        refine congrArg₂ _ rfl (List.map_congr_left ?_)
        intro i _
        have : s.nextId + 1 + i = s.nextId + (i + 1) := by omega
        simp [Function.comp, this]
      · simp only [ih2.2, hlog2, List.append_assoc, List.replicate_succ,
          List.singleton_append, List.cons_append]
        simp

theorem construct_singleton_fresh (b : Bool) (s : St) (t : Token) (ty : PyType)
    (cap : CleanupCap)
    (hp : dlookup s.providers t = some ⟨false, ProvBody.fresh ty cap⟩)
    (heff : effectiveScope s t = Scope.SINGLETON)
    (hs : (dlookup s.singletons t).getD PyVal.none = PyVal.none)
    (hty : ty = t.type_)
    (hcl : hasCleanup (PyVal.obj s.nextId ty cap) = true) :
    construct b s t =
      (Except.ok (PyVal.obj s.nextId ty cap),
       set_singleton_cached
         { s with
           callLog := s.callLog ++ [t]
           nextId := s.nextId + 1
           resources := s.resources ++ [PyVal.obj s.nextId ty cap] }
         t (PyVal.obj s.nextId ty cap)) := by
  unfold construct
  rw [hp]
  subst hty
  simp [heff, hs, runProvider, validate_and_track, tokenValidate, hcl,
    set_singleton_cached]

theorem construct_fresh_ok (b : Bool) (s : St) (t : Token) (ty : PyType)
    (cap : CleanupCap)
    (hp : dlookup s.providers t = some ⟨false, ProvBody.fresh ty cap⟩)
    (hs : (dlookup s.singletons t).getD PyVal.none = PyVal.none)
    (hty : ty = t.type_) :
    (construct b s t).1 = Except.ok (PyVal.obj s.nextId ty cap) := by
  unfold construct
  rw [hp]
  subst hty
  cases heff : effectiveScope s t <;>
    by_cases hcl : hasCleanup (PyVal.obj s.nextId t.type_ cap) = true <;>
      simp [heff, hs, runProvider, validate_and_track, tokenValidate, hcl]

end ResolutionLemmas

/-- C2: if the resolved token is already a member of the current flow's
resolution guard when resolution reaches the guard (neither an override
nor a cached instance short-circuits it), both `get` and `aget` fail with
`CircularDependencyError` carrying the token and the guard stack snapshot
at that moment; and on every exit from resolution, by normal return or by
any raised error, the guard stack is restored to its state before the call
(so it is empty again after a failed top-level resolution). -/
theorem C2_cycle_detection (s : St) (t : Token) :
    (get_override s t = Option.none → resolve_from_context s t = PyVal.none →
      t ∈ s.stack →
      Container.get s (Sum.inl t) =
          (Except.error (Err.circularDependency t s.stack),
           { s with cacheMisses := s.cacheMisses + 1 }) ∧
        Container.aget s (Sum.inl t) =
          (Except.error (Err.circularDependency t s.stack),
           { s with cacheMisses := s.cacheMisses + 1 })) ∧
    (Container.get s (Sum.inl t)).2.stack = s.stack ∧
    (Container.aget s (Sum.inl t)).2.stack = s.stack := by
  refine ⟨fun h1 h2 h3 => ⟨?_, ?_⟩, ?_, ?_⟩
  · rw [get_inl]; exact resolveToken_circular false s t h1 h2 h3
  · rw [aget_inl]; exact resolveToken_circular true s t h1 h2 h3
  · rw [get_inl]; exact resolveToken_stack false s t
  · rw [aget_inl]; exact resolveToken_stack true s t

/-- Witness for C2: at `wC2St` the hypotheses hold and resolution fails
with the circular-dependency error carrying the guard snapshot. -/
theorem C2_cycle_detection_witness :
    Container.get wC2St (Sum.inl tokSg) =
      (Except.error (Err.circularDependency tokSg wC2St.stack),
       { wC2St with cacheMisses := wC2St.cacheMisses + 1 }) :=
  ((C2_cycle_detection wC2St tokSg).1 (by decide) (by decide) (by decide)).1

/-- C1: when the current context's override map binds the token to an
instance, `get` and `aget` return that instance and the post-state differs
from the pre-state only in the hit counter, so neither the singleton cache,
nor any scope cache, nor the provider, nor the resolution guard is
consulted or modified; and the precedence override > singleton-cache >
active-scope-cache > provider is total: with no override the singleton
cache wins, with no singleton entry the active scope frame wins, and only
then is the provider invoked. -/
theorem C1_override_precedence (s : St) (t : Token) :
    (∀ m v, ovGet s = some m → dlookup m t = some v → v ≠ PyVal.none →
      Container.get s (Sum.inl t) = (Except.ok v, bumpHits s) ∧
      Container.aget s (Sum.inl t) = (Except.ok v, bumpHits s)) ∧
    (∀ w, get_override s t = Option.none → dlookup s.singletons t = some w →
      w ≠ PyVal.none →
      Container.get s (Sum.inl t) = (Except.ok w, bumpHits s)) ∧
    (∀ w f rest, get_override s t = Option.none →
      (dlookup s.singletons t).getD PyVal.none = PyVal.none →
      effectiveScope s t = Scope.REQUEST → s.requestFrames = f :: rest →
      dlookup f t = some w → w ≠ PyVal.none →
      Container.get s (Sum.inl t) = (Except.ok w, bumpHits s)) ∧
    (∀ v, get_override s t = Option.none → resolve_from_context s t = PyVal.none →
      t ∉ s.stack →
      dlookup s.providers t = some ⟨false, ProvBody.const v⟩ →
      effectiveScope s t = Scope.TRANSIENT →
      tokenValidate t v = true → hasCleanup v = false →
      Container.get s (Sum.inl t) =
        (Except.ok v, { missBump s with callLog := s.callLog ++ [t] })) := by
  refine ⟨fun m v hm hv hnn => ?_, fun w h1 hw hnn => ?_,
    fun w f rest h1 hs heff hfr hw hnn => ?_, fun v h1 h2 h3 hp heff hval hcl => ?_⟩
  · have ho := get_override_some s t m v hm hv hnn
    exact ⟨by rw [get_inl]; exact resolveToken_override false s t v ho,
      by rw [aget_inl]; exact resolveToken_override true s t v ho⟩
  · have hr := resolve_singleton_hit s t w hw hnn
    rw [get_inl, resolveToken_ctx false s t h1 (by rw [hr]; exact hnn), hr]
  · have hr := resolve_frame_hit s t w f rest hs heff hfr hw
    rw [get_inl, resolveToken_ctx false s t h1 (by rw [hr]; exact hnn), hr]
  · rw [get_inl, resolveToken_main false s t h1 h2 h3]
    rw [construct_transient_const false (pushedSt s t) t v hp heff hval hcl]
    simp [pushedSt, missBump]

/-- Witness for C1: at `wC1St` the override wins over both the cached
singleton `objV` and the registered provider, for `get` and `aget`. -/
theorem C1_override_precedence_witness :
    Container.get wC1St (Sum.inl tokSg) = (Except.ok objW, bumpHits wC1St) ∧
    Container.aget wC1St (Sum.inl tokSg) = (Except.ok objW, bumpHits wC1St) :=
  (C1_override_precedence wC1St tokSg).1 [(tokSg, objW)] objW
    (by decide) (by decide) (by decide)

/-- C9: `None` is treated as absence at every lookup layer: an override
binding the token to `None` is invisible to `_get_override`; a singleton
cache slot holding `None` is invisible to the context lookup; and when
both layers hold `None`, `get` and `aget` fall through to the provider and
return its value, overwriting the `None` slot, so `None` can never be
returned from an override or from the singleton cache. -/
theorem C9_none_is_absence (s : St) (t : Token) :
    (∀ m, ovGet s = some m → dlookup m t = some PyVal.none →
      get_override s t = Option.none) ∧
    (dlookup s.singletons t = some PyVal.none → effectiveScope s t = Scope.SINGLETON →
      resolve_from_context s t = PyVal.none) ∧
    (∀ m v, ovGet s = some m → dlookup m t = some PyVal.none →
      dlookup s.singletons t = some PyVal.none →
      effectiveScope s t = Scope.SINGLETON →
      t ∉ s.stack →
      dlookup s.providers t = some ⟨false, ProvBody.const v⟩ →
      tokenValidate t v = true → hasCleanup v = false →
      Container.get s (Sum.inl t) =
          (Except.ok v,
           { missBump s with
             singletons := dinsert s.singletons t v
             callLog := s.callLog ++ [t] }) ∧
        Container.aget s (Sum.inl t) =
          (Except.ok v,
           { missBump s with
             singletons := dinsert s.singletons t v
             callLog := s.callLog ++ [t] })) := by
  have hover : ∀ m, ovGet s = some m → dlookup m t = some PyVal.none →
      get_override s t = Option.none := by
    intro m hm hv
    simp [get_override, hm, hv]
  have hctx : dlookup s.singletons t = some PyVal.none →
      effectiveScope s t = Scope.SINGLETON → resolve_from_context s t = PyVal.none := by
    intro hsg heff
    simp [resolve_from_context, hsg, heff]
  refine ⟨hover, hctx, fun m v hm hv hsg heff h3 hp hval hcl => ?_⟩
  have h1 := hover m hm hv
  have h2 := hctx hsg heff
  have hcore : ∀ b : Bool, resolveToken b s t =
      (Except.ok v,
       { missBump s with
         singletons := dinsert s.singletons t v
         callLog := s.callLog ++ [t] }) := by
    intro b
    rw [resolveToken_main b s t h1 h2 h3]
    rw [construct_singleton_const b (pushedSt s t) t v hp heff
      (ctx_none_singleton s t h2) hval hcl]
    simp [pushedSt, missBump]
  exact ⟨by rw [get_inl]; exact hcore false, by rw [aget_inl]; exact hcore true⟩

/-- Witness for C9: at `wC9St` both `None` bindings are skipped and `get`
returns the provider's value. -/
theorem C9_none_is_absence_witness :
    Container.get wC9St (Sum.inl tokSg) =
      (Except.ok objV,
       { missBump wC9St with
         singletons := dinsert wC9St.singletons tokSg objV
         callLog := wC9St.callLog ++ [tokSg] }) :=
  (((C9_none_is_absence wC9St tokSg).2.2 [(tokSg, PyVal.none)] objV
    (by decide) (by decide) (by decide) (by decide) (by decide) (by decide)
    (by decide) (by decide))).1

/-- C3: `register_value(t, v)` followed by `get(t)` returns exactly `v`
with only the hit counter advancing (so the provider table is not
consulted); a later `register(t, provider)` does not evict the value; and
after `clear()`, `get(t)` fails with `ResolutionError` (the no-provider
kind). -/
theorem C3_register_value_roundtrip (s : St) (t : Token) (v : PyVal) (p : Provider)
    (sc : Option Scope)
    (hov : get_override s t = Option.none)
    (hstk : t ∉ s.stack)
    (hnn : v ≠ PyVal.none) :
    Container.get (register_value s (Sum.inl t) v) (Sum.inl t) =
      (Except.ok v, bumpHits (register_value s (Sum.inl t) v)) ∧
    Container.get (register (register_value s (Sum.inl t) v) (Sum.inl t) p sc [])
        (Sum.inl t) =
      (Except.ok v,
       bumpHits (register (register_value s (Sum.inl t) v) (Sum.inl t) p sc [])) ∧
    Container.get (clear s) (Sum.inl t) =
      (Except.error (Err.resolutionError t [] ResMsg.noProvider), missBump (clear s)) := by
  refine ⟨?_, ?_, ?_⟩
  · have hov1 : get_override (register_value s (Sum.inl t) v) t = Option.none := hov
    have hr : resolve_from_context (register_value s (Sum.inl t) v) t = v :=
      resolve_singleton_hit _ t v (by simp [register_value, dlookup_dinsert_self]) hnn
    rw [get_inl, resolveToken_ctx false _ t hov1 (by rw [hr]; exact hnn), hr]
  · cases sc with
    | none =>
        have hov1 : get_override
            (register (register_value s (Sum.inl t) v) (Sum.inl t) p Option.none []) t =
            Option.none := hov
        have hr : resolve_from_context
            (register (register_value s (Sum.inl t) v) (Sum.inl t) p Option.none []) t = v :=
          resolve_singleton_hit _ t v (by simp [register, register_value, dlookup_dinsert_self]) hnn
        rw [get_inl, resolveToken_ctx false _ t hov1 (by rw [hr]; exact hnn), hr]
    | some scv =>
        have hov1 : get_override
            (register (register_value s (Sum.inl t) v) (Sum.inl t) p (some scv) []) t =
            Option.none := hov
        have hr : resolve_from_context
            (register (register_value s (Sum.inl t) v) (Sum.inl t) p (some scv) []) t = v :=
          resolve_singleton_hit _ t v (by simp [register, register_value, dlookup_dinsert_self]) hnn
        rw [get_inl, resolveToken_ctx false _ t hov1 (by rw [hr]; exact hnn), hr]
  · have hov1 : get_override (clear s) t = Option.none := hov
    have hstk1 : t ∉ (clear s).stack := hstk
    have h2 : resolve_from_context (clear s) t = PyVal.none :=
      resolve_none_of_empty _ t (by simp [clear, clear_all_contexts, dlookup]) rfl rfl
    rw [get_inl, resolveToken_main false _ t hov1 h2 hstk1]
    rw [construct_no_provider false (pushedSt (clear s) t) t
      (by simp [clear, clear_all_contexts, dlookup])]
    simp [pushedSt, missBump]

/-- Witness for C3 at the empty container, `tokSg` and the plain value
`objV`, with a subsequent provider registration at request scope. -/
theorem C3_register_value_roundtrip_witness :
    Container.get (register_value emptySt (Sum.inl tokSg) objV) (Sum.inl tokSg) =
      (Except.ok objV, bumpHits (register_value emptySt (Sum.inl tokSg) objV)) ∧
    Container.get (register (register_value emptySt (Sum.inl tokSg) objV) (Sum.inl tokSg)
        ⟨false, ProvBody.const objW⟩ (some Scope.REQUEST) []) (Sum.inl tokSg) =
      (Except.ok objV,
       bumpHits (register (register_value emptySt (Sum.inl tokSg) objV) (Sum.inl tokSg)
         ⟨false, ProvBody.const objW⟩ (some Scope.REQUEST) [])) ∧
    Container.get (clear emptySt) (Sum.inl tokSg) =
      (Except.error (Err.resolutionError tokSg [] ResMsg.noProvider),
       missBump (clear emptySt)) :=
  C3_register_value_roundtrip emptySt tokSg objV ⟨false, ProvBody.const objW⟩
    (some Scope.REQUEST) (by decide) (by decide) (by decide)

/-- C4: for a token whose effective scope is TRANSIENT (with no override
and no cached value shadowing it), N sequential `get` calls each invoke
the registered instance-constructing provider — N invocations are appended
to the call log — and return N pairwise distinct instances; no call
returns a value cached by an earlier one. -/
theorem C4_transient_no_cache (s : St) (t : Token) (ty : PyType) (cap : CleanupCap)
    (N : Nat)
    (h1 : get_override s t = Option.none)
    (h2 : resolve_from_context s t = PyVal.none)
    (h3 : t ∉ s.stack)
    (hp : dlookup s.providers t = some ⟨false, ProvBody.fresh ty cap⟩)
    (heff : effectiveScope s t = Scope.TRANSIENT)
    (hty : ty = t.type_) :
    (getN N s (Sum.inl t)).1 =
      (List.range N).map (fun i => Except.ok (PyVal.obj (s.nextId + i) ty cap)) ∧
    (getN N s (Sum.inl t)).2.callLog = s.callLog ++ List.replicate N t ∧
    ((getN N s (Sum.inl t)).1).Nodup := by
  obtain ⟨hres, hlog⟩ := getN_transient_fresh s t ty cap N h1 h2 h3 hp heff hty
  refine ⟨hres, hlog, ?_⟩
  rw [hres]
  refine List.Nodup.map ?_ (List.nodup_range N)
  intro i j hij
  simp only [Except.ok.injEq, PyVal.obj.injEq] at hij
  omega

/-- Witness for C4 at `wC4St` with three sequential calls. -/
theorem C4_transient_no_cache_witness :
    (getN 3 wC4St (Sum.inl tokTr)).1 =
      (List.range 3).map (fun i => Except.ok (PyVal.obj (wC4St.nextId + i) tyA CleanupCap.nocap)) ∧
    (getN 3 wC4St (Sum.inl tokTr)).2.callLog = wC4St.callLog ++ List.replicate 3 tokTr ∧
    ((getN 3 wC4St (Sum.inl tokTr)).1).Nodup :=
  C4_transient_no_cache wC4St tokTr tyA CleanupCap.nocap 3
    (by decide) (by decide) (by decide) (by decide) (by decide) (by decide)

/-- C5: when synchronous resolution falls through to a registered async
provider (no override, no cached instance, guard free), `get` fails with
the `ResolutionError` whose message directs the caller to `aget` (the
async-provider-in-sync-context error kind); the provider is not invoked
and nothing is cached: the post-state differs from the pre-state only in
the miss counter. -/
theorem C5_async_provider_sync_get (s : St) (t : Token) (p : Provider)
    (h1 : get_override s t = Option.none)
    (h2 : resolve_from_context s t = PyVal.none)
    (h3 : t ∉ s.stack)
    (hp : dlookup s.providers t = some p)
    (ha : p.isAsync = true) :
    Container.get s (Sum.inl t) =
      (Except.error (Err.resolutionError t [] ResMsg.asyncProviderUseAget),
       { s with cacheMisses := s.cacheMisses + 1 }) := by
  rw [get_inl, resolveToken_main false s t h1 h2 h3]
  have hp2 : dlookup (pushedSt s t).providers t = some p := hp
  have hs2 : (dlookup (pushedSt s t).singletons t).getD PyVal.none = PyVal.none :=
    ctx_none_singleton s t h2
  rw [construct_async_error _ t p hp2 ha hs2]
  simp [pushedSt, missBump]

/-- Witness for C5: at `wC5St` synchronous `get` fails with the
async-provider error and only the miss counter changes. -/
theorem C5_async_provider_sync_get_witness :
    Container.get wC5St (Sum.inl tokSg) =
      (Except.error (Err.resolutionError tokSg [] ResMsg.asyncProviderUseAget),
       { wC5St with cacheMisses := wC5St.cacheMisses + 1 }) :=
  C5_async_provider_sync_get wC5St tokSg ⟨true, ProvBody.const objV⟩
    (by decide) (by decide) (by decide) (by decide) (by decide)

/-- Reading the override variable immediately after setting it in the same
flow yields the value just set. -/
theorem ovGet_ovSet (s : St) (x : Option (List (Token × PyVal))) :
    ovGet (ovSet s x) = x := by
  simp [ovGet, ovAt, ovSet, dlookup_dinsert_self]

/-- Setting the override variable in the current flow leaves every other
flow's view unchanged. -/
theorem ovAt_ovSet_ne (s : St) (x : Option (List (Token × PyVal))) (f : Nat)
    (hf : f ≠ s.curFlow) :
    ovAt (ovSet s x) f = ovAt s f := by
  simp [ovAt, ovSet, dlookup_dinsert_ne _ _ _ _ hf]

/-- C8: entering `use_overrides(m)` replaces the current flow's override
map with the prior map merged with `m`, `m` winning on key conflicts (and
keys absent from `m` keep their prior binding); on exit of the block —
whether the body terminates normally or with an error — the current flow's
override map is restored to exactly the prior value; and no other flow's
override view is affected, given that the body itself (which runs inside
the current flow) preserves the current flow id and other flows' views, as
every container operation does. -/
theorem C8_use_overrides_restore (s : St) (m : List (Token × PyVal))
    (body : St → St × Option Err)
    (hm : (m.map Prod.fst).Nodup)
    (hflow : ∀ u, (body u).1.curFlow = u.curFlow)
    (hother : ∀ u f, f ≠ u.curFlow → ovAt (body u).1 f = ovAt u f) :
    ovGet (use_overrides_enter s m) = some (dupdate ((ovGet s).getD []) m) ∧
    (∀ t v, dlookup m t = some v →
      dlookup (dupdate ((ovGet s).getD []) m) t = some v) ∧
    (∀ t, dlookup m t = Option.none →
      dlookup (dupdate ((ovGet s).getD []) m) t = dlookup ((ovGet s).getD []) t) ∧
    ovAt (use_overrides_run s m body).1 s.curFlow = ovAt s s.curFlow ∧
    (∀ f, f ≠ s.curFlow → ovAt (use_overrides_run s m body).1 f = ovAt s f) := by
  have hcfEnter : (use_overrides_enter s m).curFlow = s.curFlow := rfl
  have hcfBody : ((body (use_overrides_enter s m)).1).curFlow = s.curFlow := by
    rw [hflow (use_overrides_enter s m)]
    exact hcfEnter
  refine ⟨ovGet_ovSet s _, fun t v hv => dupdate_lookup_in _ m t v hm hv,
    fun t hv => dupdate_lookup_notin _ m t hv, ?_, fun f hf => ?_⟩
  · show ovAt (ovSet (body (use_overrides_enter s m)).1 (ovGet s)) s.curFlow =
      ovAt s s.curFlow
    rw [show ovAt (ovSet (body (use_overrides_enter s m)).1 (ovGet s)) s.curFlow =
      (dlookup (dinsert ((body (use_overrides_enter s m)).1).ovCtx
        ((body (use_overrides_enter s m)).1).curFlow (ovGet s)) s.curFlow).getD
        Option.none from rfl]
    rw [hcfBody, dlookup_dinsert_self]
    rfl
  · show ovAt (ovSet (body (use_overrides_enter s m)).1 (ovGet s)) f = ovAt s f
    have h1 : ovAt (ovSet (body (use_overrides_enter s m)).1 (ovGet s)) f =
        ovAt (body (use_overrides_enter s m)).1 f := by
      rw [show ovAt (ovSet (body (use_overrides_enter s m)).1 (ovGet s)) f =
        (dlookup (dinsert ((body (use_overrides_enter s m)).1).ovCtx
          ((body (use_overrides_enter s m)).1).curFlow (ovGet s)) f).getD
          Option.none from rfl]
      rw [hcfBody, dlookup_dinsert_ne _ _ _ _ hf]
      rfl
    rw [h1, hother (use_overrides_enter s m) f (by rw [hcfEnter]; exact hf)]
    exact ovAt_ovSet_ne s _ f hf

/-- Witness for C8: entering merges the mapping over the prior map, the
block restores flow 0's map exactly, and flow 1's view is untouched. -/
theorem C8_use_overrides_restore_witness :
    ovGet (use_overrides_enter wC8St [(tokSg, objW)]) =
      some (dupdate ((ovGet wC8St).getD []) [(tokSg, objW)]) ∧
    ovAt (use_overrides_run wC8St [(tokSg, objW)] wC8Body).1 wC8St.curFlow =
      ovAt wC8St wC8St.curFlow ∧
    ovAt (use_overrides_run wC8St [(tokSg, objW)] wC8Body).1 1 = ovAt wC8St 1 := by
  have h := C8_use_overrides_restore wC8St [(tokSg, objW)] wC8Body
    (by decide) (fun u => rfl) (fun u f _ => rfl)
  exact ⟨h.1, h.2.2.2.1, h.2.2.2.2 1 (by decide)⟩

/-- Counterexample to C6 as stated: at `cex6St`, `get` succeeds and
constructs a cleanup-capable instance whose resource record is in the
resource list of the resulting (reachable) state while the instance sits
in no cache at all — the singleton cache and both frame stacks are empty —
so the resource list does hold a record whose instance is not cached, and
the record was not appended "only after" a cache write. -/
theorem C6_lifecycle_order_counterexample :
    (Container.get cex6St (Sum.inl tokTr)).1 =
        Except.ok (PyVal.obj 1 tyA CleanupCap.syncClose) ∧
    (Container.get cex6St (Sum.inl tokTr)).2.resources =
        [PyVal.obj 1 tyA CleanupCap.syncClose] ∧
    (Container.get cex6St (Sum.inl tokTr)).2.singletons = [] ∧
    (Container.get cex6St (Sum.inl tokTr)).2.requestFrames = [] ∧
    (Container.get cex6St (Sum.inl tokTr)).2.sessionFrames = [] := by
  decide

/-- C6 amended: the resource record for a constructed cleanup-capable
instance is appended immediately after type validation and before — not
after — any cache write: in the SINGLETON path the cache write
(`_set_singleton_cached`) is applied to the intermediate state `trackMid`
that already holds the record but not the cache entry, and in the
TRANSIENT path the record is appended although the instance is never
written to any cache. -/
theorem C6_lifecycle_order_amended (s : St) (t : Token) (ty : PyType)
    (cap : CleanupCap)
    (h1 : get_override s t = Option.none)
    (h2 : resolve_from_context s t = PyVal.none)
    (h3 : t ∉ s.stack)
    (hp : dlookup s.providers t = some ⟨false, ProvBody.fresh ty cap⟩)
    (hty : ty = t.type_)
    (hcl : cap ≠ CleanupCap.nocap) :
    (effectiveScope s t = Scope.SINGLETON →
      Container.get s (Sum.inl t) =
        (Except.ok (PyVal.obj s.nextId ty cap),
         { set_singleton_cached (trackMid s t ty cap) t (PyVal.obj s.nextId ty cap)
           with stack := s.stack }) ∧
      PyVal.obj s.nextId ty cap ∈ (trackMid s t ty cap).resources ∧
      (dlookup (trackMid s t ty cap).singletons t).getD PyVal.none = PyVal.none) ∧
    (effectiveScope s t = Scope.TRANSIENT →
      Container.get s (Sum.inl t) =
        (Except.ok (PyVal.obj s.nextId ty cap),
         { missBump s with
           callLog := s.callLog ++ [t]
           nextId := s.nextId + 1
           resources := s.resources ++ [PyVal.obj s.nextId ty cap] }) ∧
      (Container.get s (Sum.inl t)).2.singletons = s.singletons ∧
      (Container.get s (Sum.inl t)).2.requestFrames = s.requestFrames ∧
      (Container.get s (Sum.inl t)).2.sessionFrames = s.sessionFrames) := by
  have hclb : hasCleanup (PyVal.obj s.nextId ty cap) = true := by
    simp [hasCleanup, hcl]
  constructor
  · intro heff
    have heq : Container.get s (Sum.inl t) =
        (Except.ok (PyVal.obj s.nextId ty cap),
         { set_singleton_cached (trackMid s t ty cap) t (PyVal.obj s.nextId ty cap)
           with stack := s.stack }) := by
      rw [get_inl, resolveToken_main false s t h1 h2 h3]
      rw [construct_singleton_fresh false (pushedSt s t) t ty cap hp heff
        (ctx_none_singleton s t h2) hty hclb]
      simp [pushedSt, missBump, trackMid, set_singleton_cached]
    refine ⟨heq, ?_, ?_⟩
    · simp [trackMid, pushedSt, missBump]
    · have : (dlookup (trackMid s t ty cap).singletons t).getD PyVal.none =
          (dlookup s.singletons t).getD PyVal.none := rfl
      rw [this]
      exact ctx_none_singleton s t h2
  · intro heff
    have heq : Container.get s (Sum.inl t) =
        (Except.ok (PyVal.obj s.nextId ty cap),
         { missBump s with
           callLog := s.callLog ++ [t]
           nextId := s.nextId + 1
           resources := s.resources ++ [PyVal.obj s.nextId ty cap] }) := by
      rw [get_transient_fresh_step s t ty cap h1 h2 h3 hp heff hty]
      simp [hclb]
    refine ⟨heq, ?_, ?_, ?_⟩ <;> simp [heq, missBump]

/-- Witness for the amended C6 at `wC6St`: the final state is the cache
write applied to the tracked-but-not-yet-cached intermediate state. -/
theorem C6_lifecycle_order_amended_witness :
    Container.get wC6St (Sum.inl tokSg) =
      (Except.ok (PyVal.obj 1 tyA CleanupCap.asyncClose),
       { set_singleton_cached (trackMid wC6St tokSg tyA CleanupCap.asyncClose) tokSg
           (PyVal.obj 1 tyA CleanupCap.asyncClose)
         with stack := wC6St.stack }) ∧
    PyVal.obj 1 tyA CleanupCap.asyncClose ∈
      (trackMid wC6St tokSg tyA CleanupCap.asyncClose).resources ∧
    (dlookup (trackMid wC6St tokSg tyA CleanupCap.asyncClose).singletons tokSg).getD
        PyVal.none = PyVal.none :=
  (C6_lifecycle_order_amended wC6St tokSg tyA CleanupCap.asyncClose
    (by decide) (by decide) (by decide) (by decide) (by decide) (by decide)).1
    (by decide)

/-- C7: awaiting `aclose` schedules the cleanup of every tracked resource
in reverse registration (append) order and then clears the provider table,
the singleton cache and all contextual caches; `aclose` is idempotent on
repeated calls, so no resource's cleanup is invoked a second time by a
repeated `aclose`. -/
theorem C7_aclose_teardown (s : St) :
    ((∀ v ∈ s.resources, hasCleanup v = true) →
      (aclose s).closeLog = s.closeLog ++ s.resources.reverse.map pyId) ∧
    aclose (aclose s) = aclose s ∧
    (aclose s).providers = [] ∧
    (aclose s).singletons = [] ∧
    (aclose s).requestFrames = [] ∧
    (aclose s).sessionFrames = [] ∧
    (aclose s).resources = [] := by
  refine ⟨fun hall => ?_, ?_, rfl, rfl, rfl, rfl, rfl⟩
  · have hfil : s.resources.reverse.filter hasCleanup = s.resources.reverse := by
      apply List.filter_eq_self.mpr
      intro v hv
      exact hall v (List.mem_reverse.mp hv)
    simp [aclose, clear, clear_all_contexts, aexitCleanup, hfil]
  · simp [aclose, clear, clear_all_contexts, aexitCleanup]

/-- Witness for C7: the two resources are cleaned up in reverse append
order (9 before 7) and a second `aclose` changes nothing. -/
theorem C7_aclose_teardown_witness :
    (aclose wC7St).closeLog = wC7St.closeLog ++ wC7St.resources.reverse.map pyId ∧
    aclose (aclose wC7St) = aclose wC7St :=
  ⟨(C7_aclose_teardown wC7St).1 (by decide), (C7_aclose_teardown wC7St).2.1⟩

/-- C10: `has` on a bare type checks only the given-provider table and
membership of the freshly fabricated default token in the provider table
or singleton cache, while `get` on the same bare type scans the registered
tokens for a matching type; hence after `register(T, provider, scope=S)`
with `S` different from the fabricated token's default (TRANSIENT) scope,
`get(T)` resolves successfully while `has(T)` returns `False`. -/
theorem C10_has_get_disagreement (s0 : St) (T : PyType) (S : Scope) (cap : CleanupCap)
    (hS : S ≠ Scope.TRANSIENT)
    (hG : dcontains s0.givens T = false)
    (hscan : ∀ kv ∈ s0.providers, kv.1.type_ ≠ T)
    (hfab : dcontains s0.singletons (fabToken T) = false)
    (hsing : (dlookup s0.singletons (tokensCreate T.name T S [])).getD PyVal.none =
      PyVal.none)
    (hov : get_override s0 (tokensCreate T.name T S []) = Option.none)
    (hstk : tokensCreate T.name T S [] ∉ s0.stack)
    (hrq : s0.requestFrames = []) (hsn : s0.sessionFrames = []) :
    has (register s0 (Sum.inr T) ⟨false, ProvBody.fresh T cap⟩ (some S) []) (Sum.inr T)
      = false ∧
    (Container.get (register s0 (Sum.inr T) ⟨false, ProvBody.fresh T cap⟩ (some S) [])
        (Sum.inr T)).1 = Except.ok (PyVal.obj s0.nextId T cap) := by
  have hne : fabToken T ≠ tokensCreate T.name T S [] := by
    intro h
    exact hS ((congrArg Token.scope h).symm)
  have hnotin : dlookup s0.providers (tokensCreate T.name T S []) = Option.none := by
    rw [dlookup_eq_none_iff]
    intro hmem
    obtain ⟨kv, hkv, hkveq⟩ := List.mem_map.mp hmem
    exact hscan kv hkv (by rw [hkveq]; rfl)
  have hfabprov : dlookup s0.providers (fabToken T) = Option.none := by
    rw [dlookup_eq_none_iff]
    intro hmem
    obtain ⟨kv, hkv, hkveq⟩ := List.mem_map.mp hmem
    exact hscan kv hkv (by rw [hkveq]; rfl)
  have happ : dinsert s0.providers (tokensCreate T.name T S [])
      (⟨false, ProvBody.fresh T cap⟩ : Provider) =
      s0.providers ++ [(tokensCreate T.name T S [], ⟨false, ProvBody.fresh T cap⟩)] :=
    dinsert_eq_append _ _ _ hnotin
  constructor
  · show (dcontains s0.givens T ||
      (dcontains (dinsert s0.providers (tokensCreate T.name T S [])
        ⟨false, ProvBody.fresh T cap⟩) (fabToken T) ||
       dcontains s0.singletons (fabToken T))) = false
    have hX : dcontains (dinsert s0.providers (tokensCreate T.name T S [])
        (⟨false, ProvBody.fresh T cap⟩ : Provider)) (fabToken T) = false := by
      unfold dcontains
      rw [dlookup_dinsert_ne _ _ _ _ hne, hfabprov]
      rfl
    rw [hG, hfab, hX]
    rfl
  · have hfind : (dinsert s0.providers (tokensCreate T.name T S [])
        (⟨false, ProvBody.fresh T cap⟩ : Provider)).find?
        (fun kv => kv.1.type_ = T) =
        some (tokensCreate T.name T S [], ⟨false, ProvBody.fresh T cap⟩) := by
      rw [happ]
      exact find?_type_last s0.providers T _ _ hscan rfl
    have hgiven : (dlookup s0.givens T).getD PyVal.none = PyVal.none := by
      rw [dlookup_none_of_not_contains s0.givens T hG]
      rfl
    have hcoerce : coerce_to_token
        (register s0 (Sum.inr T) ⟨false, ProvBody.fresh T cap⟩ (some S) [])
        (Sum.inr T) = tokensCreate T.name T S [] := by
      show (match (dinsert s0.providers (tokensCreate T.name T S [])
          (⟨false, ProvBody.fresh T cap⟩ : Provider)).find?
          (fun kv => kv.1.type_ = T) with
        | some kv => kv.1
        | Option.none => fabToken T) = tokensCreate T.name T S []
      rw [hfind]
    have hget : Container.get
        (register s0 (Sum.inr T) ⟨false, ProvBody.fresh T cap⟩ (some S) [])
        (Sum.inr T) =
        resolveToken false
          (register s0 (Sum.inr T) ⟨false, ProvBody.fresh T cap⟩ (some S) [])
          (tokensCreate T.name T S []) := by
      show (let g := (dlookup s0.givens T).getD PyVal.none
        if g ≠ PyVal.none then (Except.ok g,
          register s0 (Sum.inr T) ⟨false, ProvBody.fresh T cap⟩ (some S) [])
        else resolveToken false
          (register s0 (Sum.inr T) ⟨false, ProvBody.fresh T cap⟩ (some S) [])
          (coerce_to_token
            (register s0 (Sum.inr T) ⟨false, ProvBody.fresh T cap⟩ (some S) [])
            (Sum.inr T))) = _
      rw [hcoerce]
      simp [hgiven]
    have hov1 : get_override
        (register s0 (Sum.inr T) ⟨false, ProvBody.fresh T cap⟩ (some S) [])
        (tokensCreate T.name T S []) = Option.none := hov
    have hctx1 : resolve_from_context
        (register s0 (Sum.inr T) ⟨false, ProvBody.fresh T cap⟩ (some S) [])
        (tokensCreate T.name T S []) = PyVal.none :=
      resolve_none_of_empty _ _ hsing hrq hsn
    have hstk1 : tokensCreate T.name T S [] ∉
        (register s0 (Sum.inr T) ⟨false, ProvBody.fresh T cap⟩ (some S) []).stack := hstk
    rw [hget, resolveToken_main false _ _ hov1 hctx1 hstk1]
    exact construct_fresh_ok false _ (tokensCreate T.name T S []) T cap
      (by exact dlookup_dinsert_self s0.providers _ _) hsing rfl

/-- Witness for C10 at the empty container: registering `tyA` by bare type
at SINGLETON scope makes `get(tyA)` succeed while `has(tyA)` is `False`. -/
theorem C10_has_get_disagreement_witness :
    has (register emptySt (Sum.inr tyA) ⟨false, ProvBody.fresh tyA CleanupCap.nocap⟩
      (some Scope.SINGLETON) []) (Sum.inr tyA) = false ∧
    (Container.get (register emptySt (Sum.inr tyA)
        ⟨false, ProvBody.fresh tyA CleanupCap.nocap⟩ (some Scope.SINGLETON) [])
      (Sum.inr tyA)).1 = Except.ok (PyVal.obj emptySt.nextId tyA CleanupCap.nocap) :=
  C10_has_get_disagreement emptySt tyA Scope.SINGLETON CleanupCap.nocap
    (by decide) (by decide) (by simp [emptySt]) (by decide) (by decide) (by decide)
    (by decide) (by decide) (by decide)

end Pyinj
